import Mathlib

/-!
# Verification of the steamclipexporter clip-assembly pipeline

Shallow embedding of the Rust sources (`src/main.rs`, `src/utils.rs`,
`src/steam_api.rs`) of `bapplebo/steamclipexporter`, together with proofs
about the embedded functions.

Modelling conventions:
* byte contents are `List Nat`, paths and file names are `String`;
* fallible I/O steps (`File::create`, `File::open`, `io::copy`, the ffmpeg
  subprocess) are passed in as explicit `Except`/outcome values, and the
  embedding records exactly how the source combines them (in particular,
  where the source drops a `Result` on the floor, so does the model);
* Rust's stable `sort_by` is modelled by `List.mergeSort`, which is stable
  and sorts by the same boolean comparison;
* `u32`/`u64` parsing is `Nat` parsing with an explicit range check.
-/

/-- Rust `char::is_ascii_digit`-style check used by `str::parse` for
unsigned integers. -/
def isDigitChar (c : Char) : Bool := '0' ≤ c && c ≤ '9'

/-- Numeric value of a digit string, most significant digit first. -/
def digitsToNat (l : List Char) : Nat :=
  l.foldl (fun acc c => 10 * acc + (c.toNat - '0'.toNat)) 0

/-- Models Rust `str::parse::<uN>()` for an unsigned integer type whose
maximal value is `bound`: an optional leading `+`, then one or more ASCII
digits, and the value must fit in the type; anything else is a parse
error (`none`). -/
def parseUnsigned (bound : Nat) (l : List Char) : Option Nat :=
  match l with
  | [] => none
  | c :: rest =>
    let ds := if c = '+' then rest else c :: rest
    if ds ≠ [] ∧ ds.all isDigitChar then
      let n := digitsToNat ds
      if n ≤ bound then some n else none
    else none

/-- Rust `str::parse::<u32>()` (value as a `Nat`). -/
def parse_u32 (l : List Char) : Option Nat := parseUnsigned 4294967295 l

/-- Rust `str::parse::<u64>()` (value as a `Nat`). -/
def parse_u64 (l : List Char) : Option Nat := parseUnsigned 18446744073709551615 l

/-- Models Rust `str::split(sep)`: splits at every occurrence of `sep`;
the result is never empty, and empty fragments are kept (`"".split('-')`
is `[""]`, `"-".split('-')` is `["", ""]`). -/
def splitOnChar (sep : Char) : List Char → List (List Char)
  | [] => [[]]
  | c :: rest =>
    let r := splitOnChar sep rest
    if c = sep then [] :: r
    else
      match r with
      | [] => [[c]]
      | h :: t => (c :: h) :: t

/-- Models Rust `Path::file_name()` on a path string: components are the
`/`-separated fragments with empty fragments and `.` dropped; the file
name is the last component, unless it is `..` (or there is none), in
which case there is no file name. -/
def fileNameChars (l : List Char) : Option (List Char) :=
  let comps := (splitOnChar '/' l).filter (fun c => c ≠ [] ∧ c ≠ ['.'])
  match comps.getLast? with
  | none => none
  | some c => if c = ['.', '.'] then none else some c

/-- `Path::file_name()` lifted to `String`. -/
def fileNameOf (p : String) : Option String :=
  (fileNameChars p.data).map String.mk

/-- The sort key a file NAME contributes in `utils::sort_chunks`: the
fragment after the last `-`, parsed as a `u32`, defaulting to `0` when
the parse fails. -/
def chunk_key_of_name (f : String) : Nat :=
  match (splitOnChar '-' f.data).getLast? with
  | none => 0
  | some suf => (parse_u32 suf).getD 0

/-- The full sort key of `utils::sort_chunks` for a chunk file PATH:
`file_name()`, then the suffix after the last `-`, parsed as `u32`;
every failure along the chain (`and_then`) yields the default key `0`. -/
def chunk_sort_key (p : String) : Nat :=
  match fileNameOf p with
  | none => 0
  | some f => chunk_key_of_name f

/-- `utils::sort_chunks`: Rust's stable `Vec::sort_by` with comparator
`a_num.cmp(&b_num)` on the extracted keys, modelled by the stable
`List.mergeSort` with the corresponding boolean `≤` test. -/
def sort_chunks (l : List String) : List String :=
  l.mergeSort (fun a b => decide (chunk_sort_key a ≤ chunk_sort_key b))

/-- Models Rust `str::trim_start_matches(pat)`: removes the prefix `pat`
repeatedly, as long as it matches. -/
def trimStartMatches (pat : List Char) (l : List Char) : List Char :=
  if h : pat ≠ [] ∧ pat.isPrefixOf l then
    trimStartMatches pat (l.drop pat.length)
  else l
termination_by l.length
decreasing_by
  have hpre : pat <+: l := by
    have h2 := h.2
    rw [ List.isPrefixOf_iff_prefix] at h2
    exact h2
  have hlen : pat.length ≤ l.length := hpre.length_le
  have hpos : 0 < pat.length := List.length_pos.mpr h.1
  simp only [List.length_drop]
  omega

/-- `utils::parse_clip_string`. The source unwraps `file_name()`, indexes
`parts[0..2]` and unwraps three `u64` parses; each of those panics aborts
the whole process, modelled here as `none`. (The `to_str()` unwrap — a
non-UTF-8 file name — has no counterpart, since the model's strings are
already unicode.) -/
def parse_clip_string (clip_string : String) : Option (Nat × Nat × Nat) := do
  let last_part ← fileNameOf clip_string
  let trimmed_part := trimStartMatches "clip_".data last_part.data
  let parts := splitOnChar '_' trimmed_part
  let p0 ← parts[0]?
  let p1 ← parts[1]?
  let p2 ← parts[2]?
  let clip_number ← parse_u64 p0
  let date ← parse_u64 p1
  let time ← parse_u64 p2
  return (clip_number, date, time)

unseal List.merge List.mergeSort in
example :
    sort_chunks ["chunk-stream0-2", "chunk-stream0-10", "chunk-stream0-1"] =
      ["chunk-stream0-1", "chunk-stream0-2", "chunk-stream0-10"] := by decide

example : chunk_sort_key "chunk-stream0-4294967296" = 0 := by decide
example : chunk_sort_key "chunk-stream0-4294967295" = 4294967295 := by decide
example : fileNameOf "a/b/c" = some "c" := by decide
example : fileNameOf ".." = none := by decide
example : fileNameOf "bg_x/" = some "bg_x" := by decide
unseal trimStartMatches in
example : parse_clip_string "clip_238960_20240815_015514" =
    some (238960, 20240815, 15514) := by decide
unseal trimStartMatches in
example : parse_clip_string "C:/clips/clip_1_2_3_4" = some (1, 2, 3) := by decide
unseal trimStartMatches in
example : parse_clip_string "bad" = none := by decide
unseal trimStartMatches in
example : parse_clip_string "clip_clip_7_8_9" = some (7, 8, 9) := by decide

/-! ## Clip Namer (`steam_api::get_app_details`, `main::get_game_name_from_id`) -/

/-- A fragment of the JSON values the Steam response can contain. Only
strings and objects are distinguished; that is all the lookup chain in
`get_game_name_from_id` inspects. -/
inductive JVal where
  | str (s : String)
  | obj (fields : List (String × JVal))

/-- Models `serde_json::Value::get(key)`: a field lookup that succeeds
only on objects. -/
def JVal.getField : JVal → String → Option JVal
  | .str _, _ => none
  | .obj fields, k => fields.lookup k

/-- Models `Value::to_string()` (the JSON rendering): a string renders
with its surrounding quotes. Escaping of special characters inside the
string and the rendering of objects are elided; no claim depends on
them. -/
def JVal.render : JVal → String
  | .str s => "\"" ++ s ++ "\""
  | .obj _ => "\x7bobject\x7d"

/-- `main::AppDetails`: the serde-flattened response object, a map from
keys (app-id strings) to JSON values. -/
structure AppDetails where
  properties : List (String × JVal)

/-- The observable outcome of the blocking HTTP GET issued by
`get_app_details`: either a transport error, or a response with a status
code and (when the body parses as `AppDetails`) a parsed body. -/
inductive ApiResponse where
  | transportErr (msg : String)
  | response (status : Nat) (body : Option AppDetails)

/-- `steam_api::get_app_details`, with the network outcome passed in:
a transport error propagates (first `?`); `error_for_status_ref` turns a
client- or server-error status (400–599) into an error (second `?`);
a body that fails to deserialize propagates (third `?`). -/
def get_app_details (resp : ApiResponse) : Except String AppDetails :=
  match resp with
  | .transportErr m => .error m
  | .response status body =>
    if 400 ≤ status ∧ status ≤ 599 then .error "status error"
    else
      match body with
      | none => .error "error decoding response body"
      | some d => .ok d

/-- Characters removed by `sanitize_filename::sanitize` with default
options on a non-Windows target: the crate's illegal class
`/ ? < > \ : * | "` and the control classes `0x00–0x1f`, `0x80–0x9f`. -/
def isSanitizedAway (c : Char) : Bool :=
  c = '/' || c = '?' || c = '<' || c = '>' || c = '\\' || c = ':' ||
    c = '*' || c = '|' || c = '"' || c.toNat ≤ 0x1f ||
    (0x80 ≤ c.toNat && c.toNat ≤ 0x9f)

/-- Models `sanitize_filename::sanitize` (default options, non-Windows):
illegal and control characters are removed, a name consisting solely of
dots becomes empty, and the result is truncated to 255 (here: characters;
the crate truncates to 255 bytes, identical on ASCII names). -/
def sanitize (s : String) : String :=
  let cleaned := s.data.filter (fun c => !isSanitizedAway c)
  let reserved := if cleaned ≠ [] ∧ cleaned.all (· = '.') then [] else cleaned
  String.mk (reserved.take 255)

/-- The chain of `and_then` field lookups `get_game_name_from_id`
performs on a successfully fetched response: `properties.get` at the
app-id string, then `.get("data")`, then `.get("name")`. -/
def findNameField (d : AppDetails) (steam_id : Nat) : Option JVal :=
  ((d.properties.lookup (Nat.repr steam_id)).bind (JVal.getField · "data")).bind
    (JVal.getField · "name")

/-- `main::get_game_name_from_id`, with the network outcome passed in.
On a lookup error, or when the response lacks the app-id key, its `data`
object or the `name` field (the `findNameField` chain), the fixed
default `"clip"` is returned; otherwise the rendered name is
filesystem-sanitized. -/
def get_game_name_from_id (steam_id : Nat) (resp : ApiResponse) : String :=
  match get_app_details resp with
  | .ok app_details =>
    match findNameField app_details steam_id with
    | some name => sanitize name.render
    | none => "clip"
  | .error _ => "clip"

/-- `format!("{} {} {}", game_name, date, time)` from
`main::export_clip_at_directory`. -/
def output_file_name (game_name : String) (date time : Nat) : String :=
  game_name ++ " " ++ Nat.repr date ++ " " ++ Nat.repr time

example : get_game_name_from_id 10 (.transportErr "timeout") = "clip" := by decide
example : get_game_name_from_id 10 (.response 404 none) = "clip" := by decide
example :
    get_game_name_from_id 10
      (.response 200 (some ⟨[("10", .obj [("data", .obj [("name", .str "El*den: Ring")])])]⟩)) =
      "Elden Ring" := by decide

/-! ## Muxer Invoker destination path (`main::join_video_audio`) -/

/-- Models Rust `Path::file_stem()` on a bare file name: the portion
before the last `.`, except that a lone leading dot does not start an
extension, and `..` has no stem. -/
def file_stem_str (f : String) : String :=
  if f = ".." then f
  else
    let parts := splitOnChar '.' f.data
    if parts.length ≤ 1 then f
    else if parts.head? = some [] ∧ parts.length = 2 then f
    else String.mk (List.intercalate ['.'] parts.dropLast)

/-- Models `PathBuf::with_extension("mp4")` applied to a bare file name:
for the degenerate names without a file stem the call is a no-op;
otherwise the current extension (everything from the last relevant `.`)
is dropped and `.mp4` is appended. -/
def set_ext_mp4 (f : String) : String :=
  if f = "" ∨ f = "." ∨ f = ".." then f
  else file_stem_str f ++ ".mp4"

/-- The destination path computed by `main::join_video_audio`:
`output_dir.join(name).with_extension("mp4")` when an output directory
was supplied, `PathBuf::from(name).with_extension("mp4")` otherwise.
Modelled for names that contain no path separator, which holds for every
name the program produces (`sanitize` strips `/` and `\`, and date/time
are digit strings): joining then appends the name after a `/`, and
`with_extension` acts on the final component, i.e. on the name itself. -/
def join_video_audio_destination (output_dir : Option String) (name : String) :
    String :=
  match output_dir with
  | some dir => dir ++ "/" ++ set_ext_mp4 name
  | none => set_ext_mp4 name

example : join_video_audio_destination none "clip 20240815 15514" =
    "clip 20240815 15514.mp4" := by decide
example : join_video_audio_destination none "Dr. Who 20240815 15514" =
    "Dr.mp4" := by decide
example : set_ext_mp4 "a.b.c" = "a.b.mp4" := by decide
example : set_ext_mp4 ".hidden" = ".hidden.mp4" := by decide

/-! ## Stream Assembler (`main::concat_video_files`, `main::concat_audio_files`)

The filesystem reads performed by one `concat_*_files` call are passed in
as explicit outcomes: the result of `File::create` on the temporary output
file, the result of `File::open` + `io::copy` on the initialization
segment, and the directory listing, each entry carrying the outcome of
opening and copying that file. -/

/-- An I/O error as the model distinguishes them: the `ErrorKind::NotFound`
error `concat_m4s_files` constructs (with its message), or any other
error (tagged by an arbitrary code). -/
inductive IOErr where
  | notFound (msg : String)
  | other (code : Nat)
deriving DecidableEq

/-- The observable outcome of `io::copy(&mut init_file, &mut output_file)`
for the initialization segment: the bytes that got written, and the error
the copy returned, if any (`none` = the copy succeeded and `written` is
the whole segment). -/
structure InitCopy where
  written : List Nat
  copyErr : Option IOErr
deriving DecidableEq

/-- One entry of `fs::read_dir` on the segment directory: its file name,
whether it is a regular file, and the outcome of `File::open` +
`io::copy` on it (only consulted for entries selected as chunks). A copy
that fails is modelled as failing before appending; the source would
leave the bytes copied so far in the output, but every failure path
discards the output file, so nothing observable depends on it. -/
structure DirEntry where
  name : String
  isFile : Bool
  content : Except IOErr (List Nat)

/-- The chunk selection both `concat_*_files` functions perform on the
directory listing: regular files whose name starts with the stream's
chunk prefix. -/
def selectChunks (pre : String) (entries : List DirEntry) : List DirEntry :=
  entries.filter (fun e => e.isFile && pre.isPrefixOf e.name)

/-- The `sort_chunks` call inside `concat_*_files`, acting on directory
entries. The source sorts the full paths `dir.join(name)`; since
`file_name(dir.join(name)) = name` for the names `read_dir` yields, the
key of each path is `chunk_key_of_name` of the entry's name. -/
def sortChunkEntries (entries : List DirEntry) : List DirEntry :=
  entries.mergeSort
    (fun a b => decide (chunk_key_of_name a.name ≤ chunk_key_of_name b.name))

/-- The chunk-appending loop of `concat_*_files`: opens and copies each
chunk in order into the output file, propagating the first failure
(both the open and the copy carry `?` in the source). Returns the output
file's content so far together with the `io::Result`. -/
def appendChunks (acc : List Nat) :
    List DirEntry → List Nat × Except IOErr Unit
  | [] => (acc, .ok ())
  | e :: rest =>
    match e.content with
    | .error err => (acc, .error err)
    | .ok bytes => appendChunks (acc ++ bytes) rest

/-- Common body of `concat_video_files` and `concat_audio_files`:
`File::create` the temporary output (on failure the previous temporary
file state `prev` is untouched), `File::open` the initialization segment,
`io::copy` it — the source DISCARDS this `io::copy`'s `Result` (no `?`),
so a failed init copy is ignored and processing continues — then select,
sort and append the chunk files. Returns the temporary file's content
(`none` = file absent) and the function's `io::Result`. -/
def concat_stream_files (pre : String) (createRes : Except IOErr Unit)
    (initOpen : Except IOErr InitCopy) (entries : List DirEntry)
    (prev : Option (List Nat)) : Option (List Nat) × Except IOErr Unit :=
  match createRes with
  | .error e => (prev, .error e)
  | .ok () =>
    match initOpen with
    | .error e => (some [], .error e)
    | .ok init =>
      let (content, res) :=
        appendChunks init.written (sortChunkEntries (selectChunks pre entries))
      (some content, res)

/-- `main::concat_video_files`: assembles `tmp_video.mp4` from
`init-stream0.m4s` and the `chunk-stream0-` files. -/
def concat_video_files (createRes : Except IOErr Unit)
    (initOpen : Except IOErr InitCopy) (entries : List DirEntry)
    (prev : Option (List Nat)) : Option (List Nat) × Except IOErr Unit :=
  concat_stream_files "chunk-stream0-" createRes initOpen entries prev

/-- `main::concat_audio_files`: assembles `tmp_audio.mp4` from
`init-stream1.m4s` and the `chunk-stream1-` files. -/
def concat_audio_files (createRes : Except IOErr Unit)
    (initOpen : Except IOErr InitCopy) (entries : List DirEntry)
    (prev : Option (List Nat)) : Option (List Nat) × Except IOErr Unit :=
  concat_stream_files "chunk-stream1-" createRes initOpen entries prev

/-- Embeds a list of (file name, bytes) pairs as directory entries whose
reads all succeed. -/
def okEntries (l : List (String × List Nat)) : List DirEntry :=
  l.map (fun nb => ⟨nb.1, true, .ok nb.2⟩)

/-- Specification-side expression for C2: the contents of the chunk
files with the given prefix, in ascending order of their numeric
suffix (stably sorted). -/
def sortedChunkContents (pre : String) (l : List (String × List Nat)) :
    List (List Nat) :=
  ((l.filter (fun nb => pre.isPrefixOf nb.1)).mergeSort
      (fun a b => decide (chunk_key_of_name a.1 ≤ chunk_key_of_name b.1))).map
    Prod.snd

/-! ## Pipeline Orchestrator (`main::main`, `main::export_clip_at_directory`,
`main::concat_m4s_files`, `main::cleanup`) -/

/-- The state of the shared temporary directory: the contents of the two
fixed-name files `tmp_video.mp4` and `tmp_audio.mp4` (`none` = absent). -/
structure TmpState where
  tmpVideo : Option (List Nat)
  tmpAudio : Option (List Nat)
deriving DecidableEq

/-- `main::cleanup`: removes both fixed-name temporary files; the
`fs::remove_file` results are ignored by the source, so removal succeeds
from any state. -/
def cleanup (_s : TmpState) : TmpState := ⟨none, none⟩

/-- Everything one clip's `concat_m4s_files` call observes of the
filesystem and the external muxer. -/
structure ClipFS where
  initVideoExists : Bool
  initAudioExists : Bool
  createVideo : Except IOErr Unit
  initVideoOpen : Except IOErr InitCopy
  createAudio : Except IOErr Unit
  initAudioOpen : Except IOErr InitCopy
  entries : List DirEntry
  joinResult : Except IOErr Unit

/-- `main::concat_m4s_files`: if both `init-stream0.m4s` and
`init-stream1.m4s` exist, run video assembly, audio assembly and the
muxer in order (each `?` aborts), then `cleanup` on the success path;
otherwise fail immediately with the `NotFound` error. Chunk files are
never checked for existence. Returns the temporary-directory state and
the `io::Result`. -/
def concat_m4s_files (s : TmpState) (fs : ClipFS) :
    TmpState × Except IOErr Unit :=
  if fs.initVideoExists && fs.initAudioExists then
    let (v, rv) := concat_video_files fs.createVideo fs.initVideoOpen
      fs.entries s.tmpVideo
    match rv with
    | .error e => (⟨v, s.tmpAudio⟩, .error e)
    | .ok () =>
      let (a, ra) := concat_audio_files fs.createAudio fs.initAudioOpen
        fs.entries s.tmpAudio
      match ra with
      | .error e => (⟨v, a⟩, .error e)
      | .ok () =>
        match fs.joinResult with
        | .error e => (⟨v, a⟩, .error e)
        | .ok () => (cleanup ⟨v, a⟩, .ok ())
  else (s, .error (.notFound "Init files not found, unable to process clip"))

/-- One candidate clip directory together with everything processing it
observes: the directory name, the Steam API outcome, and the segment
directory's filesystem outcomes. -/
structure Clip where
  name : String
  lookup : ApiResponse
  fs : ClipFS

/-- `main::export_clip_at_directory`: parses the clip string — the
`unwrap`s/indexing inside `parse_clip_string` PANIC on failure, aborting
the whole process, modelled as `none` — resolves the game name (total,
never fails), then runs `concat_m4s_files`, DISCARDING its `io::Result`
(the call's value is dropped by the trailing `;`). -/
def export_clip_at_directory (s : TmpState) (c : Clip) : Option TmpState :=
  match parse_clip_string c.name with
  | none => none
  | some _ => some (concat_m4s_files s c.fs).1

/-- The per-clip loop in `main::main`: for each subdirectory, `cleanup`
first ("just in case there's hanging temp files"), then export. Returns
the list of temporary-directory states at which each attempted clip's
export began, and whether the loop ran to completion (`false` = a panic
aborted the run). -/
def main_loop (s : TmpState) : List Clip → List TmpState × Bool
  | [] => ([], true)
  | c :: rest =>
    let s1 := cleanup s
    match export_clip_at_directory s1 c with
    | none => ([s1], false)
    | some s2 =>
      let (tl, done) := main_loop s2 rest
      (s1 :: tl, done)

/-! ## Helper lemmas -/

theorem keyLe_trans {α : Type} (key : α → Nat) :
    ∀ a b c : α, (fun x y => decide (key x ≤ key y)) a b →
      (fun x y => decide (key x ≤ key y)) b c →
      (fun x y => decide (key x ≤ key y)) a c := by
  intro a b c hab hbc
  simp only [decide_eq_true_eq] at *
  omega

theorem keyLe_total {α : Type} (key : α → Nat) :
    ∀ a b : α, ((fun x y => decide (key x ≤ key y)) a b ||
      (fun x y => decide (key x ≤ key y)) b a) := by
  intro a b
  simp only [Bool.or_eq_true, decide_eq_true_eq]
  omega

/-- Sorting by a numeric key with the stable `mergeSort` leaves the
relative order of the elements of any fixed key unchanged. -/
theorem mergeSort_filter_key_eq {α : Type} (key : α → Nat) (l : List α)
    (k : Nat) :
    (l.mergeSort (fun a b => decide (key a ≤ key b))).filter
        (fun x => decide (key x = k)) =
      l.filter (fun x => decide (key x = k)) := by
  set le := fun a b : α => decide (key a ≤ key b) with hle
  set p := fun x : α => decide (key x = k) with hp
  have hBpair : (l.filter p).Pairwise (le · ·) := by
    apply List.pairwise_of_forall_mem_list
    intro a ha b hb
    have hak := (List.mem_filter.mp ha).2
    have hbk := (List.mem_filter.mp hb).2
    simp only [hp, decide_eq_true_eq] at hak hbk
    simp [hle, hak, hbk]
  have hsub : List.Sublist (l.filter p) (l.mergeSort le) :=
    List.sublist_mergeSort (keyLe_trans key) (keyLe_total key) hBpair
      (List.filter_sublist l)
  have hsub2 : List.Sublist (l.filter p) ((l.mergeSort le).filter p) := by
    have hself : (l.filter p).filter p = l.filter p :=
      List.filter_eq_self.mpr (fun a ha => (List.mem_filter.mp ha).2)
    have hstep := hsub.filter p
    rwa [hself] at hstep
  have hperm : List.Perm ((l.mergeSort le).filter p) (l.filter p) :=
    (List.mergeSort_perm l le).filter p
  exact (hsub2.eq_of_length hperm.length_eq.symm).symm

theorem splitOnChar_ne_nil (sep : Char) (l : List Char) :
    splitOnChar sep l ≠ [] := by
  induction l with
  | nil => simp [splitOnChar]
  | cons c rest ih =>
    simp only [splitOnChar]
    split
    · simp
    · match h : splitOnChar sep rest with
      | [] => simp
      | x :: xs => simp

theorem splitOnChar_of_not_mem {sep : Char} {l : List Char} (h : sep ∉ l) :
    splitOnChar sep l = [l] := by
  induction l with
  | nil => rfl
  | cons c rest ih =>
    have hc : ¬c = sep := fun hc => h (hc ▸ List.mem_cons_self c rest)
    have hrest : sep ∉ rest := fun hr => h (List.mem_cons_of_mem c hr)
    simp only [splitOnChar, if_neg hc, ih hrest]

theorem two_le_splitOnChar_length {sep : Char} {l : List Char}
    (h : sep ∈ l) : 2 ≤ (splitOnChar sep l).length := by
  induction l with
  | nil => cases h
  | cons c rest ih =>
    simp only [splitOnChar]
    by_cases hc : c = sep
    · rw [if_pos hc]
      have := splitOnChar_ne_nil sep rest
      have : 1 ≤ (splitOnChar sep rest).length :=
        Nat.one_le_iff_ne_zero.mpr (by simpa [List.length_eq_zero] using this)
      simp only [List.length_cons]
      omega
    · rw [if_neg hc]
      have hmem : sep ∈ rest := by
        rcases List.mem_cons.mp h with h1 | h1
        · exact absurd h1.symm hc
        · exact h1
      match hsp : splitOnChar sep rest with
      | [] => exact absurd hsp (splitOnChar_ne_nil sep rest)
      | x :: xs =>
        have := ih hmem
        rw [hsp] at this
        simpa using this

/-- The last `-`-separated fragment of `stem ++ "-" ++ suffix` is the
suffix, provided the suffix itself contains no `-`. -/
theorem getLast?_splitOnChar_append (sep : Char) (l d : List Char)
    (hd : sep ∉ d) :
    (splitOnChar sep (l ++ sep :: d)).getLast? = some d := by
  induction l with
  | nil =>
    simp only [List.nil_append, splitOnChar, if_pos rfl,
      splitOnChar_of_not_mem hd]
    rfl
  | cons c l ih =>
    simp only [List.cons_append, splitOnChar]
    by_cases hc : c = sep
    · rw [if_pos hc]
      match hsp : splitOnChar sep (l ++ sep :: d) with
      | [] => exact absurd hsp (splitOnChar_ne_nil sep _)
      | x :: xs =>
        rw [hsp] at ih
        rw [List.getLast?_cons_cons]
        exact ih
    · rw [if_neg hc]
      have hmem : sep ∈ l ++ sep :: d :=
        List.mem_append_right l (List.mem_cons_self sep d)
      match hsp : splitOnChar sep (l ++ sep :: d) with
      | [] => exact absurd hsp (splitOnChar_ne_nil sep _)
      | [x] =>
        have := two_le_splitOnChar_length hmem
        rw [hsp] at this
        simp at this
      | x :: y :: xs =>
        rw [hsp] at ih
        rw [List.getLast?_cons_cons]
        rw [List.getLast?_cons_cons] at ih
        exact ih

/-- A nonempty path without `/` that is neither `.` nor `..` is its own
file name. -/
theorem fileNameChars_eq_self {l : List Char} (h : '/' ∉ l) (h1 : l ≠ [])
    (h2 : l ≠ ['.']) (h3 : l ≠ ['.', '.']) : fileNameChars l = some l := by
  unfold fileNameChars
  rw [splitOnChar_of_not_mem h]
  have hfilter : List.filter (fun c => decide (c ≠ [] ∧ c ≠ ['.'])) [l] = [l] := by
    simp [List.filter, h1, h2]
  simp only [hfilter, List.getLast?_singleton]
  rw [if_neg h3]

/-- A digit character is none of the special characters the parsers and
splitters treat specially. -/
theorem isDigitChar_ne {c : Char} (h : isDigitChar c) :
    c ≠ '+' ∧ c ≠ '-' ∧ c ≠ '/' := by
  unfold isDigitChar at h
  simp only [Bool.and_eq_true, decide_eq_true_eq] at h
  refine ⟨?_, ?_, ?_⟩ <;> rintro rfl <;> revert h <;> decide

/-! ## Claim theorems -/

unseal List.merge List.mergeSort in
theorem sort_chunks_numeric_example :
    sort_chunks ["chunk-stream0-2", "chunk-stream0-10", "chunk-stream0-1"] =
      ["chunk-stream0-1", "chunk-stream0-2", "chunk-stream0-10"] := by decide

/-- C1: for every list of chunk file paths, `sort_chunks` returns a
permutation of its input (no file dropped), with the numeric suffix keys
(`0` for an unparsable suffix) non-decreasing under purely numeric
comparison — suffixes 2, 10, 1 order to 1, 2, 10, not lexicographically —
and files with equal keys retain their original relative order (the sort
is stable). -/
theorem sort_chunks_correct (l : List String) :
    List.Perm (sort_chunks l) l ∧
    (sort_chunks l).Pairwise (fun a b => chunk_sort_key a ≤ chunk_sort_key b) ∧
    (∀ k : Nat,
      (sort_chunks l).filter (fun s => decide (chunk_sort_key s = k)) =
        l.filter (fun s => decide (chunk_sort_key s = k))) ∧
    sort_chunks ["chunk-stream0-2", "chunk-stream0-10", "chunk-stream0-1"] =
      ["chunk-stream0-1", "chunk-stream0-2", "chunk-stream0-10"] := by
  refine ⟨List.mergeSort_perm l _, ?_, ?_, sort_chunks_numeric_example⟩
  · have hs := @List.sorted_mergeSort String
      (fun a b => decide (chunk_sort_key a ≤ chunk_sort_key b))
      (keyLe_trans chunk_sort_key) (keyLe_total chunk_sort_key) l
    exact hs.imp (by intro a b hab; simpa using hab)
  · intro k
    exact mergeSort_filter_key_eq chunk_sort_key l k

/-- C9: a chunk filename whose all-digit suffix denotes a value above
`u32::MAX` fails the `u32` parse, so the file gets key `0` and is ordered
before files with small parsable suffixes (here: before suffix 9): the
ordering key is a 32-bit parse, not arbitrary precision. -/
theorem chunk_suffix_u32_overflow (d : List Char) (h1 : d ≠ [])
    (h2 : ∀ c ∈ d, isDigitChar c) (h3 : 4294967295 < digitsToNat d) :
    parse_u32 d = none ∧
    chunk_sort_key (String.mk ("chunk-stream0".data ++ '-' :: d)) = 0 ∧
    sort_chunks
        [String.mk ("chunk-stream0".data ++ '-' :: d), "chunk-stream0-9"] =
      [String.mk ("chunk-stream0".data ++ '-' :: d), "chunk-stream0-9"] := by
  have hparse : parse_u32 d = none := by
    obtain ⟨c, rest, rfl⟩ : ∃ c rest, d = c :: rest := by
      cases d with
      | nil => exact absurd rfl h1
      | cons c rest => exact ⟨c, rest, rfl⟩
    have hc : isDigitChar c := h2 c (List.mem_cons_self c rest)
    have hcplus : c ≠ '+' := (isDigitChar_ne hc).1
    have hall : (c :: rest).all isDigitChar = true := by
      rw [List.all_eq_true]; exact h2
    show (let ds := if c = '+' then rest else c :: rest
      if ds ≠ [] ∧ ds.all isDigitChar then
        let n := digitsToNat ds
        if n ≤ 4294967295 then some n else none
      else none) = none
    rw [if_neg hcplus]
    simp only []
    rw [if_pos ⟨List.cons_ne_nil c rest, hall⟩]
    rw [if_neg (by omega)]
  have hdash : '-' ∉ d := fun hd =>
    absurd rfl ((isDigitChar_ne (h2 '-' hd)).2.1)
  have hkeyname : chunk_key_of_name
      (String.mk ("chunk-stream0".data ++ '-' :: d)) = 0 := by
    show (match (splitOnChar '-' ("chunk-stream0".data ++ '-' :: d)).getLast? with
      | none => 0
      | some suf => (parse_u32 suf).getD 0) = 0
    rw [getLast?_splitOnChar_append '-' _ _ hdash]
    simp [hparse]
  have hkey : chunk_sort_key (String.mk ("chunk-stream0".data ++ '-' :: d)) = 0 := by
    have hslash : '/' ∉ "chunk-stream0".data ++ '-' :: d := by
      intro hmem
      rcases List.mem_append.mp hmem with hstem | htail
      · revert hstem; decide
      · rcases List.mem_cons.mp htail with hdashs | hd
        · exact absurd hdashs (by decide)
        · exact absurd (h2 '/' hd) (by decide)
    have hfn : fileNameChars ("chunk-stream0".data ++ '-' :: d) =
        some ("chunk-stream0".data ++ '-' :: d) :=
      fileNameChars_eq_self hslash (by simp) (by simp) (by simp)
    show (match (fileNameChars ("chunk-stream0".data ++ '-' :: d)).map String.mk with
      | none => 0
      | some f => chunk_key_of_name f) = 0
    rw [hfn]
    simpa using hkeyname
  refine ⟨hparse, hkey, ?_⟩
  apply List.mergeSort_of_sorted
  rw [List.pairwise_pair]
  rw [decide_eq_true_eq, hkey]
  exact Nat.zero_le _

/-- C9 witness: the concrete suffix 4294967296 = `u32::MAX + 1`. -/
theorem chunk_suffix_u32_overflow_witness :
    parse_u32 "4294967296".data = none ∧
    chunk_sort_key (String.mk ("chunk-stream0".data ++ '-' :: "4294967296".data)) = 0 ∧
    sort_chunks
        [String.mk ("chunk-stream0".data ++ '-' :: "4294967296".data),
          "chunk-stream0-9"] =
      [String.mk ("chunk-stream0".data ++ '-' :: "4294967296".data),
        "chunk-stream0-9"] :=
  chunk_suffix_u32_overflow "4294967296".data (by decide) (by decide) (by decide)

unseal trimStartMatches in
theorem parse_clip_eval_bare_name :
    parse_clip_string "238960_20240815_015514" =
      some (238960, 20240815, 15514) := by decide

unseal trimStartMatches in
theorem parse_clip_eval_extra_parts :
    parse_clip_string "clip_1_2_3_4" = some (1, 2, 3) := by decide

unseal trimStartMatches in
theorem parse_clip_eval_spec_example :
    parse_clip_string "clip_238960_20240815_015514" =
      some (238960, 20240815, 15514) := by decide

theorem selectChunks_okEntries (pre : String) (l : List (String × List Nat)) :
    selectChunks pre (okEntries l) =
      okEntries (l.filter (fun nb => pre.isPrefixOf nb.1)) := by
  unfold selectChunks okEntries
  rw [List.filter_map]
  have hcomp : ((fun e : DirEntry => e.isFile && pre.isPrefixOf e.name) ∘
      (fun nb : String × List Nat =>
        (⟨nb.1, true, .ok nb.2⟩ : DirEntry))) =
      fun nb : String × List Nat => pre.isPrefixOf nb.1 := by
    funext nb
    simp [Function.comp]
  rw [hcomp]

theorem sortChunkEntries_okEntries (l : List (String × List Nat)) :
    sortChunkEntries (okEntries l) =
      okEntries (l.mergeSort
        (fun a b => decide (chunk_key_of_name a.1 ≤ chunk_key_of_name b.1))) := by
  unfold sortChunkEntries okEntries
  exact (List.map_mergeSort
    (f := fun nb : String × List Nat => (⟨nb.1, true, .ok nb.2⟩ : DirEntry))
    (r := fun a b => decide (chunk_key_of_name a.1 ≤ chunk_key_of_name b.1))
    (s := fun a b => decide (chunk_key_of_name a.name ≤ chunk_key_of_name b.name))
    (l := l) (fun a _ b _ => rfl)).symm

/-- On the fully successful branch, `concat_stream_files` is the
append-loop applied to the sorted chunk selection. -/
theorem concat_stream_files_ok_ok (pre : String) (ic : InitCopy)
    (entries : List DirEntry) (prev : Option (List Nat)) :
    concat_stream_files pre (.ok ()) (.ok ic) entries prev =
      (some (appendChunks ic.written
          (sortChunkEntries (selectChunks pre entries))).1,
        (appendChunks ic.written
          (sortChunkEntries (selectChunks pre entries))).2) := rfl

theorem appendChunks_all_ok (acc : List Nat) (l : List (String × List Nat)) :
    appendChunks acc (okEntries l) =
      (acc ++ (l.map Prod.snd).flatten, .ok ()) := by
  induction l generalizing acc with
  | nil => simp [appendChunks, okEntries]
  | cons nb rest ih =>
    simp only [okEntries, List.map_cons, appendChunks] at ih ⊢
    rw [ih (acc ++ nb.2)]
    simp [List.append_assoc]

/-- C2: on the success path (output file created, initialization segment
fully copied, every chunk read succeeding), the assembled temporary
stream file's content is exactly the initialization segment's bytes
followed by each selected chunk's bytes in ascending numeric-suffix
order; its length is the init length plus the sum of the chunk lengths;
and the model being a pure function, re-running on the same inputs gives
byte-identical output. Both `concat_video_files` and
`concat_audio_files` are instances of `concat_stream_files` (prefixes
`chunk-stream0-` / `chunk-stream1-`). -/
theorem concat_stream_files_content (pre : String) (init : List Nat)
    (l : List (String × List Nat)) (prev : Option (List Nat)) :
    concat_stream_files pre (.ok ()) (.ok ⟨init, none⟩) (okEntries l) prev =
      (some (init ++ (sortedChunkContents pre l).flatten), .ok ()) ∧
    (init ++ (sortedChunkContents pre l).flatten).length =
      init.length + ((sortedChunkContents pre l).map List.length).sum ∧
    concat_stream_files pre (.ok ()) (.ok ⟨init, none⟩) (okEntries l) prev =
      concat_stream_files pre (.ok ()) (.ok ⟨init, none⟩) (okEntries l) prev := by
  refine ⟨?_, by simp, rfl⟩
  rw [concat_stream_files_ok_ok, selectChunks_okEntries,
    sortChunkEntries_okEntries, appendChunks_all_ok]
  unfold sortedChunkContents
  rfl

/-- C10: `parse_clip_string` accepts more names than the
`clip_<id>_<date>_<time>` shape: the `clip_` prefix is optional (a name of
three bare numeric parts parses), components after the third are ignored
(four parts parse to the first three), and leading zeros are lost because
each part is parsed as an unsigned integer (`015514` parses to `15514`,
as in the spec's own example). -/
theorem parse_clip_string_lenient :
    parse_clip_string "238960_20240815_015514" =
      some (238960, 20240815, 15514) ∧
    parse_clip_string "clip_1_2_3_4" = some (1, 2, 3) ∧
    parse_clip_string "clip_238960_20240815_015514" =
      some (238960, 20240815, 15514) :=
  ⟨parse_clip_eval_bare_name, parse_clip_eval_extra_parts,
    parse_clip_eval_spec_example⟩

/-- C8: for every outcome of the remote title lookup — transport error,
client/server-error HTTP status, undecodable body, or a decoded body in
which the app-id key, the `data` object or the `name` field is missing —
the Clip Namer returns the fixed default `"clip"`; when the chain
resolves, the rendered name is filesystem-sanitized; and the final name
string is `"<name> <date> <time>"`. The function is total, so it never
aborts clip processing. -/
theorem get_game_name_defaults (steam_id : Nat) (resp : ApiResponse)
    (date time : Nat) (details : AppDetails) (v : JVal) :
    (∀ m, resp = .transportErr m →
      get_game_name_from_id steam_id resp = "clip") ∧
    (∀ status body, resp = .response status body → 400 ≤ status →
      status ≤ 599 → get_game_name_from_id steam_id resp = "clip") ∧
    (∀ status, resp = .response status none →
      ¬(400 ≤ status ∧ status ≤ 599) →
      get_game_name_from_id steam_id resp = "clip") ∧
    (get_app_details resp = .ok details →
      findNameField details steam_id = none →
      get_game_name_from_id steam_id resp = "clip") ∧
    (get_app_details resp = .ok details →
      findNameField details steam_id = some v →
      get_game_name_from_id steam_id resp = sanitize v.render) ∧
    output_file_name (get_game_name_from_id steam_id resp) date time =
      get_game_name_from_id steam_id resp ++ " " ++ Nat.repr date ++ " " ++
        Nat.repr time := by
  refine ⟨?_, ?_, ?_, ?_, ?_, rfl⟩
  · rintro m rfl
    rfl
  · rintro status body rfl h4 h5
    simp [get_game_name_from_id, get_app_details, h4, h5]
  · rintro status rfl hn
    simp [get_game_name_from_id, get_app_details, hn]
  · intro hok hnone
    simp [get_game_name_from_id, hok, hnone]
  · intro hok hsome
    simp [get_game_name_from_id, hok, hsome]

/-- C8 witness: a transport error yields `"clip"`, and a well-formed
response yields the sanitized title. -/
theorem get_game_name_defaults_witness :
    get_game_name_from_id 10 (.transportErr "timeout") = "clip" ∧
    get_game_name_from_id 10
        (.response 200 (some ⟨[("10",
          .obj [("data", .obj [("name", .str "El*den: Ring")])])]⟩)) =
      sanitize (JVal.str "El*den: Ring").render :=
  ⟨(get_game_name_defaults 10 (.transportErr "timeout") 1 2 ⟨[]⟩
      (.str "x")).1 "timeout" rfl,
    (get_game_name_defaults 10
        (.response 200 (some ⟨[("10",
          .obj [("data", .obj [("name", .str "El*den: Ring")])])]⟩)) 1 2
        ⟨[("10", .obj [("data", .obj [("name", .str "El*den: Ring")])])]⟩
        (.str "El*den: Ring")).2.2.2.2.1 rfl rfl⟩

unseal List.merge List.mergeSort in
/-- C6 (evidence of the code bug): the source drops the `Result` of
`io::copy` for the initialization segment (no `?`), so a failed init
copy — here having written only the bytes `[7, 7]` before erroring —
leaves `concat_video_files` returning `Ok` with a truncated stream
instead of aborting the clip with an I/O error. -/
theorem concat_video_files_ignores_init_copy_error :
    concat_video_files (.ok ()) (.ok ⟨[7, 7], some (.other 5)⟩) [] none =
      (some [7, 7], .ok ()) := rfl

unseal List.merge List.mergeSort in
/-- C5 counterexample: a directory holding both init files but not a
single `chunk-stream0-`/`chunk-stream1-` chunk file assembles
successfully — the claimed "chunk-prefix files exist" verification does
not happen. -/
theorem concat_m4s_files_no_chunk_check :
    (concat_m4s_files ⟨none, none⟩
        ⟨true, true, .ok (), .ok ⟨[1], none⟩, .ok (), .ok ⟨[2], none⟩, [],
          .ok ()⟩).2 = .ok () := rfl

/-- C5 amended: `concat_m4s_files` verifies only that the two
initialization files exist; when either is absent the whole clip (both
streams) is aborted with the `NotFound` "Init files not found" error.
Chunk files are never checked: with both init files present and every
I/O step succeeding, an empty directory listing still assembles
successfully. -/
theorem concat_m4s_files_init_check_only (s : TmpState) (fs : ClipFS)
    (iv ia : List Nat) :
    ((fs.initVideoExists && fs.initAudioExists) = false →
      concat_m4s_files s fs =
        (s, .error (.notFound "Init files not found, unable to process clip"))) ∧
    ((fs.initVideoExists && fs.initAudioExists) = true →
      fs.createVideo = .ok () → fs.initVideoOpen = .ok ⟨iv, none⟩ →
      fs.createAudio = .ok () → fs.initAudioOpen = .ok ⟨ia, none⟩ →
      fs.joinResult = .ok () → fs.entries = [] →
      (concat_m4s_files s fs).2 = .ok ()) := by
  constructor
  · intro hfalse
    unfold concat_m4s_files
    rw [if_neg (by simp [hfalse])]
  · intro htrue hcv hivo hca hiao hjoin hentries
    unfold concat_m4s_files
    rw [if_pos htrue]
    simp only [concat_video_files, concat_audio_files, hcv, hivo, hca, hiao,
      hjoin, hentries, concat_stream_files_ok_ok]
    simp [selectChunks, sortChunkEntries, appendChunks]

/-- C5 amended witness: a directory missing the video init file fails
with the `NotFound` error; a directory with both init files and no
entries succeeds. -/
theorem concat_m4s_files_init_check_only_witness :
    concat_m4s_files ⟨none, none⟩
        ⟨false, true, .ok (), .ok ⟨[1], none⟩, .ok (), .ok ⟨[2], none⟩, [],
          .ok ()⟩ =
      (⟨none, none⟩,
        .error (.notFound "Init files not found, unable to process clip")) ∧
    (concat_m4s_files ⟨none, none⟩
        ⟨true, true, .ok (), .ok ⟨[3], none⟩, .ok (), .ok ⟨[4], none⟩, [],
          .ok ()⟩).2 = .ok () :=
  ⟨(concat_m4s_files_init_check_only ⟨none, none⟩
      ⟨false, true, .ok (), .ok ⟨[1], none⟩, .ok (), .ok ⟨[2], none⟩, [],
        .ok ()⟩ [1] [2]).1 rfl,
    (concat_m4s_files_init_check_only ⟨none, none⟩
      ⟨true, true, .ok (), .ok ⟨[3], none⟩, .ok (), .ok ⟨[4], none⟩, [],
        .ok ()⟩ [3] [4]).2 rfl rfl rfl rfl rfl rfl rfl⟩

/-- C7 counterexample: a resolved name containing a dot is truncated by
`with_extension("mp4")` — the destination for
`"Dr. Who 20240815 15514"` is `Dr.mp4` (resp. `out/Dr.mp4`), not the
full name with `.mp4` appended. -/
theorem join_destination_dot_truncates :
    join_video_audio_destination none "Dr. Who 20240815 15514" = "Dr.mp4" ∧
    join_video_audio_destination (some "out") "Dr. Who 20240815 15514" =
      "out/Dr.mp4" ∧
    join_video_audio_destination none "Dr. Who 20240815 15514" ≠
      "Dr. Who 20240815 15514.mp4" := by
  refine ⟨by decide, by decide, by decide⟩

/-- C7 amended: the mux destination is `<output_dir>/<name>.mp4` (resp.
`<name>.mp4`) only when the resolved name contains no dot; a name with a
dot has everything from its last relevant dot replaced by `.mp4`,
because the source uses `with_extension`, which strips the current
extension, rather than appending. -/
theorem join_destination_dotfree_append (dir name : String)
    (hdot : '.' ∉ name.data) (hne : name ≠ "") :
    join_video_audio_destination (some dir) name =
      dir ++ "/" ++ (name ++ ".mp4") ∧
    join_video_audio_destination none name = name ++ ".mp4" := by
  have hne2 : name ≠ "." := by
    rintro rfl
    exact hdot (by decide)
  have hne3 : name ≠ ".." := by
    rintro rfl
    exact hdot (by decide)
  have hstem : file_stem_str name = name := by
    unfold file_stem_str
    rw [if_neg hne3]
    rw [splitOnChar_of_not_mem hdot]
    simp
  have hext : set_ext_mp4 name = name ++ ".mp4" := by
    unfold set_ext_mp4
    rw [if_neg (by
      push_neg
      exact ⟨hne, hne2, hne3⟩)]
    rw [hstem]
  exact ⟨by simp [join_video_audio_destination, hext],
    by simp [join_video_audio_destination, hext]⟩

/-- C7 amended witness: a dot-free resolved name. -/
theorem join_destination_dotfree_append_witness :
    join_video_audio_destination (some "out") "clip 20240815 15514" =
      "out" ++ "/" ++ ("clip 20240815 15514" ++ ".mp4") ∧
    join_video_audio_destination none "clip 20240815 15514" =
      "clip 20240815 15514" ++ ".mp4" :=
  join_destination_dotfree_append "out" "clip 20240815 15514" (by decide)
    (by decide)

/-- The trivial segment-directory outcome used by the orchestrator
counterexamples: no init files, all I/O steps succeeding, no entries. -/
def trivialFS : ClipFS :=
  ⟨false, false, .ok (), .ok ⟨[], none⟩, .ok (), .ok ⟨[], none⟩, [], .ok ()⟩

unseal trimStartMatches in
/-- C3 counterexample: a clip directory whose name fails to parse
(`"bad"`) panics inside `parse_clip_string` and aborts the whole run:
the following, well-formed clip (`"clip_1_2_3"`) is never processed —
the failure is not contained to the one clip. -/
theorem parse_failure_aborts_whole_run :
    (main_loop ⟨none, none⟩
        [⟨"bad", .transportErr "x", trivialFS⟩,
          ⟨"clip_1_2_3", .transportErr "x", trivialFS⟩]).2 = false ∧
    (main_loop ⟨none, none⟩
        [⟨"bad", .transportErr "x", trivialFS⟩,
          ⟨"clip_1_2_3", .transportErr "x", trivialFS⟩]).1.length = 1 := by
  refine ⟨by decide, by decide⟩

/-- C3 amended: per-clip containment holds for every failure except a
clip-name parse failure. When `parse_clip_string` succeeds, the clip's
entire assembly outcome — including every I/O error, missing segments
and mux failure, whose `io::Result` the caller discards — does not stop
the loop, which continues with the remaining clips; but when parsing
fails, the process panics: the run aborts with no further clip
processed. -/
theorem per_clip_failure_containment (s : TmpState) (c : Clip)
    (rest : List Clip) :
    (parse_clip_string c.name = none →
      main_loop s (c :: rest) = ([cleanup s], false)) ∧
    (∀ v, parse_clip_string c.name = some v →
      main_loop s (c :: rest) =
        (cleanup s ::
            (main_loop (concat_m4s_files (cleanup s) c.fs).1 rest).1,
          (main_loop (concat_m4s_files (cleanup s) c.fs).1 rest).2)) := by
  constructor
  · intro hnone
    simp [main_loop, export_clip_at_directory, hnone]
  · intro v hsome
    simp [main_loop, export_clip_at_directory, hsome]

unseal trimStartMatches in
/-- C3 amended witness: part one at the unparsable name `"bad"`, part
two at the parsable name `"clip_1_2_3"` whose assembly fails (missing
init files) without stopping the loop. -/
theorem per_clip_failure_containment_witness :
    main_loop ⟨none, none⟩ [⟨"bad", .transportErr "x", trivialFS⟩] =
      ([cleanup ⟨none, none⟩], false) ∧
    main_loop ⟨none, none⟩ [⟨"clip_1_2_3", .transportErr "x", trivialFS⟩] =
      (cleanup ⟨none, none⟩ ::
          (main_loop
            (concat_m4s_files (cleanup ⟨none, none⟩) trivialFS).1 []).1,
        (main_loop
          (concat_m4s_files (cleanup ⟨none, none⟩) trivialFS).1 []).2) :=
  ⟨(per_clip_failure_containment ⟨none, none⟩
      ⟨"bad", .transportErr "x", trivialFS⟩ []).1 (by decide),
    (per_clip_failure_containment ⟨none, none⟩
      ⟨"clip_1_2_3", .transportErr "x", trivialFS⟩ []).2 (1, 2, 3)
      (by decide)⟩

/-- C4: at the point each clip's export begins — i.e. after the
loop-head `cleanup` and before `export_clip_at_directory` — both
fixed-name temporary stream files are absent, whatever the previous
clip's stages did and however they failed: one clip's temporary
resources never leak into the next clip's processing. -/
theorem tmp_files_clean_at_each_clip (s : TmpState) (clips : List Clip)
    (st : TmpState) (hst : st ∈ (main_loop s clips).1) :
    st = ⟨none, none⟩ := by
  induction clips generalizing s with
  | nil => simp [main_loop] at hst
  | cons c rest ih =>
    simp only [main_loop] at hst
    cases hexp : export_clip_at_directory (cleanup s) c with
    | none =>
      rw [hexp] at hst
      simp only [List.mem_singleton] at hst
      exact hst
    | some s2 =>
      rw [hexp] at hst
      simp only [List.mem_cons] at hst
      rcases hst with hst | hst
      · exact hst
      · exact ih s2 hst

unseal trimStartMatches in
/-- C4 witness: starting from a dirty temporary directory, the state at
which the (failing) clip's export begins is clean. -/
theorem tmp_files_clean_at_each_clip_witness :
    (⟨none, none⟩ : TmpState) ∈
      (main_loop ⟨some [9], some [8]⟩
        [⟨"clip_1_2_3", .transportErr "x", trivialFS⟩]).1 ∧
    (⟨none, none⟩ : TmpState) = ⟨none, none⟩ :=
  ⟨by decide,
    tmp_files_clean_at_each_clip ⟨some [9], some [8]⟩
      [⟨"clip_1_2_3", .transportErr "x", trivialFS⟩] ⟨none, none⟩ (by decide)⟩
